import Mathlib

/-!
Verification of the LR-table construction and symbol-table core of
FZU_COMPILER_PRINCIPLES_LAB (`src/parser/table.go`) against its specification.

Go maps are reference values: `ActionTable` is `map[int]map[Terminal]Action`,
so two outer maps may share inner maps.  We make the Go heap of inner maps
explicit: an outer map stores heap addresses of inner maps, and every
operation threads the heap.  `maps.Clone` (a shallow clone) duplicates the
outer associations but keeps the same inner-map addresses.

Machine integers are modelled as `Int`; Go's `/` on `int` truncates toward
zero, which is `Int.tdiv`.
-/

namespace FZU

/-- A Go string-typed grammar terminal (`type Terminal string` in the repo). -/
abbrev Terminal := String

/-- A Go string-typed grammar symbol. `Terminal(symbol)` in the source is the
identity conversion between these two string types. -/
abbrev Symbol := String

/-- The `ActionType` string constants of `table.go`. -/
inductive ActionType where
  | SHIFT
  | REDUCE
  | ACCEPT
  | ERROR
  | GOTO
deriving DecidableEq, Repr

/-- `Action` from `table.go` (field `Type` is spelled `Type'` here because
`Type` is reserved in Lean). -/
structure Action where
  Type' : ActionType
  Number : Int
deriving DecidableEq, Repr

/-- Association-list read, the model of a Go map lookup. -/
def assocGet {κ ν : Type} [DecidableEq κ] : List (κ × ν) → κ → Option ν
  | [], _ => none
  | (k', v') :: rest, k => if k' = k then some v' else assocGet rest k

/-- Association-list write, the model of a Go map assignment `m[k] = v`. -/
def assocSet {κ ν : Type} [DecidableEq κ] : List (κ × ν) → κ → ν → List (κ × ν)
  | [], k, v => [(k, v)]
  | (k', v') :: rest, k, v =>
    if k' = k then (k, v) :: rest else (k', v') :: assocSet rest k v

/-- The heap of inner Go maps with key type `κ` and value type `ν`; a heap
address is an index into `cells`. -/
structure GoMapHeap (κ ν : Type) where
  cells : List (List (κ × ν))
deriving DecidableEq

/-- Dereference an inner map. -/
def GoMapHeap.read {κ ν : Type} (h : GoMapHeap κ ν) (a : Nat) : List (κ × ν) :=
  h.cells.getD a []

/-- Overwrite an inner map in place (what mutating a Go inner map does). -/
def GoMapHeap.write {κ ν : Type} (h : GoMapHeap κ ν) (a : Nat) (cell : List (κ × ν)) :
    GoMapHeap κ ν :=
  ⟨h.cells.set a cell⟩

/-- `make(map[κ]ν)`: allocate a fresh empty inner map, returning its address. -/
def GoMapHeap.alloc {κ ν : Type} (h : GoMapHeap κ ν) : GoMapHeap κ ν × Nat :=
  (⟨h.cells ++ [[]]⟩, h.cells.length)

/-- An outer Go map from state index to an inner map held by reference. -/
structure GoMapRef (κ ν : Type) where
  refs : List (Int × Nat)
deriving DecidableEq

/-- The double lookup `t[s][k]` performed by a parser driver; a miss at either
level is `none` (the ERROR action of the spec). -/
def GoMapRef.lookup {κ ν : Type} [DecidableEq κ] (t : GoMapRef κ ν) (h : GoMapHeap κ ν)
    (s : Int) (k : κ) : Option ν :=
  match assocGet t.refs s with
  | none => none
  | some a => assocGet (GoMapHeap.read h a) k

/-- Every inner-map reference of the table points inside the heap. -/
def WFref {κ ν : Type} (t : GoMapRef κ ν) (h : GoMapHeap κ ν) : Prop :=
  ∀ p ∈ t.refs, p.2 < h.cells.length

/-- `ActionTable` from `table.go`: `map[int]map[Terminal]Action`. -/
abbrev ActionTable := GoMapRef Terminal Action

/-- `GotoTable` from `table.go`: `map[int]map[Symbol]int`. -/
abbrev GotoTable := GoMapRef Symbol Int

/-- The data `ActionTable.Register` packs into its `fmt.Errorf` conflict
message: state index, terminal, and both competing actions. -/
structure TableConflict where
  stateIndex : Int
  terminal : Terminal
  oldType : ActionType
  oldNumber : Int
  newType : ActionType
  newNumber : Int
deriving DecidableEq

/-- `if t[stateIndex] == nil { t[stateIndex] = make(map[κ]ν) }`:
return the address of the state's inner map, allocating it if absent. -/
def GoMapRef.ensure {κ ν : Type} (t : GoMapRef κ ν) (h : GoMapHeap κ ν) (stateIndex : Int) :
    GoMapRef κ ν × GoMapHeap κ ν × Nat :=
  match assocGet t.refs stateIndex with
  | some a => (t, h, a)
  | none =>
    let (h', a) := GoMapHeap.alloc h
    (⟨assocSet t.refs stateIndex a⟩, h', a)

/-- `ActionTable.Register` from `table.go`.  A shift/reduce or reduce/reduce
collision returns a conflict error without writing; every other collision
overwrites the slot and reports nothing. -/
def ActionTable.Register (t : ActionTable) (h : GoMapHeap Terminal Action)
    (stateIndex : Int) (action : Action) (terminal : Terminal) :
    ActionTable × GoMapHeap Terminal Action × Option TableConflict :=
  match GoMapRef.ensure t h stateIndex with
  | (t, h, a) =>
    let cell := GoMapHeap.read h a
    match assocGet cell terminal with
    | some old =>
      if old.Type' = ActionType.SHIFT ∧ action.Type' = ActionType.REDUCE then
        (t, h, some ⟨stateIndex, terminal, old.Type', old.Number, action.Type', action.Number⟩)
      else if old.Type' = ActionType.REDUCE ∧ action.Type' = ActionType.REDUCE then
        (t, h, some ⟨stateIndex, terminal, old.Type', old.Number, action.Type', action.Number⟩)
      else
        (t, GoMapHeap.write h a (assocSet cell terminal action), none)
    | none => (t, GoMapHeap.write h a (assocSet cell terminal action), none)

/-- `GotoTable.Register` from `table.go`: the conflict check is commented out
in the source, so the last write wins and no error is ever produced. -/
def GotoTable.Register (t : GotoTable) (h : GoMapHeap Symbol Int)
    (stateIndex nextStateIndex : Int) (symbol : Symbol) :
    GotoTable × GoMapHeap Symbol Int × Option TableConflict :=
  match GoMapRef.ensure t h stateIndex with
  | (t, h, a) =>
    (t, GoMapHeap.write h a (assocSet (GoMapHeap.read h a) symbol nextStateIndex), none)

/-- `ActionTable.Copy` from `table.go`: `maps.Clone(t)` is a shallow clone —
a fresh outer map whose values are the same inner-map references. -/
def ActionTable.Copy (t : ActionTable) : ActionTable := ⟨t.refs⟩

/-- `GotoTable.Copy` from `table.go`, the same shallow `maps.Clone`. -/
def GotoTable.Copy (t : GotoTable) : GotoTable := ⟨t.refs⟩

/-- Modelled from the spec: the distinguished pseudo-symbol that marks epsilon
(the empty derivation); its definition is outside `src/`. -/
def EPSILON : Symbol := "ε"

/-- Modelled from the spec: the distinguished terminal marking end-of-input;
its definition is outside `src/`. -/
def TERMINATE : Terminal := "$"

/-- Modelled from the spec: the epsilon test `sym.IsEpsilon()` used by
`LRTable.Insert`; its definition is outside `src/`. -/
def Symbol.IsEpsilon (s : Symbol) : Bool := s = EPSILON

/-- Modelled from the spec: a production — a head non-terminal and an ordered
body of symbols; its definition is outside `src/`. -/
structure Production where
  Head : Symbol
  Body : List Symbol
deriving DecidableEq

/-- Modelled from the spec: productions are compared by structural equality
(LHS + body), not identity. -/
def Production.Equals (p q : Production) : Bool := p = q

/-- Modelled from the spec: the grammar metadata `LRTable.Insert` consumes — a
production list fixing the production→index mapping, the augmented start
production, and the non-terminal membership test; its definition is outside
`src/`. -/
structure Grammar where
  Productions : List Production
  AugmentedProduction : Production
  NonTerminals : List Symbol
deriving DecidableEq

/-- Modelled from the spec: the grammar's non-terminal membership test. -/
def Grammar.IsNonTerminal (g : Grammar) (s : Symbol) : Bool :=
  g.NonTerminals.contains s

/-- Modelled from the spec: the grammar's stable production→index mapping used
as the REDUCE operand. -/
def Grammar.GetIndex (g : Grammar) (p : Production) : Int :=
  Int.ofNat (g.Productions.findIdx fun q => Production.Equals q p)

/-- Modelled from the spec: an LR item — a production, a dot position and a
lookahead terminal; its definition is outside `src/`.  The field `Production`
of the source is spelled `production` here to avoid clashing with the type. -/
structure Item where
  production : Production
  Dot : Nat
  Lookahead : Terminal
deriving DecidableEq

/-- Modelled from the spec: a state of the externally built automaton — index,
item set, and symbol→successor transition map; its definition is outside
`src/`.  `Insert` only reads the successor's `Index`, which is what the
transition map records here. -/
structure State where
  Index : Int
  Items : List Item
  Transitions : List (Symbol × Int)
deriving DecidableEq

/-- `LRTable` from `table.go`, together with the Go heaps that hold the two
tables' inner maps. -/
structure LRTable where
  actionTable : ActionTable
  gotoTable : GotoTable
  actionHeap : GoMapHeap Terminal Action
  gotoHeap : GoMapHeap Symbol Int
deriving DecidableEq

/-- The registration a single item of a state demands, read off the branch
structure of `LRTable.Insert`: an `ActionTable.Register` call, a
`GotoTable.Register` call, or none (the `continue`). -/
inductive RegEvent where
  | actionReg (stateIndex : Int) (action : Action) (terminal : Terminal)
  | gotoReg (stateIndex nextStateIndex : Int) (symbol : Symbol)
  | skip
deriving DecidableEq

/-- The branch structure of the loop body of `LRTable.Insert` (`table.go`
lines 29–45).  Where the source indexes `Body[Dot]` (well-defined there only
when `Dot < len(Body)`; out of range would panic in Go) we read with default
`EPSILON`. -/
def itemEvent (state : State) (grammar : Grammar) (item : Item) : RegEvent :=
  if item.Dot = item.production.Body.length ∨
      Symbol.IsEpsilon (item.production.Body.getD item.Dot EPSILON) then
    if item.Lookahead = TERMINATE ∧ Production.Equals item.production grammar.AugmentedProduction then
      RegEvent.actionReg state.Index ⟨ActionType.ACCEPT, 0⟩ TERMINATE
    else
      RegEvent.actionReg state.Index
        ⟨ActionType.REDUCE, Grammar.GetIndex grammar item.production⟩ item.Lookahead
  else
    let symbol := item.production.Body.getD item.Dot EPSILON
    if Symbol.IsEpsilon symbol then
      RegEvent.skip
    else if Grammar.IsNonTerminal grammar symbol then
      RegEvent.gotoReg state.Index ((assocGet state.Transitions symbol).getD 0) symbol
    else
      RegEvent.actionReg state.Index
        ⟨ActionType.SHIFT, (assocGet state.Transitions symbol).getD 0⟩ symbol

/-- Whether a registration event is a REDUCE action registration. -/
def RegEvent.isReduce : RegEvent → Bool
  | RegEvent.actionReg _ act _ => act.Type' = ActionType.REDUCE
  | _ => false

/-- Perform the registration an item demands on the table pair. -/
def applyEvent (m : LRTable) : RegEvent → LRTable × Option TableConflict
  | RegEvent.actionReg s act term =>
    match ActionTable.Register m.actionTable m.actionHeap s act term with
    | (t, h, e) => ({ m with actionTable := t, actionHeap := h }, e)
  | RegEvent.gotoReg s n sym =>
    match GotoTable.Register m.gotoTable m.gotoHeap s n sym with
    | (t, h, e) => ({ m with gotoTable := t, gotoHeap := h }, e)
  | RegEvent.skip => (m, none)

/-- One iteration of the loop body of `LRTable.Insert` for one item. -/
def insertItem (m : LRTable) (state : State) (grammar : Grammar) (item : Item) :
    LRTable × Option TableConflict :=
  applyEvent m (itemEvent state grammar item)

/-- `LRTable.Insert` from `table.go`: one pass over a state's items.  Any
error a `Register` call returns is assigned to the local `err` and dropped —
the reporting print is commented out in the source. -/
def LRTable.Insert (m : LRTable) (state : State) (grammar : Grammar) : LRTable :=
  state.Items.foldl (fun m item => (insertItem m state grammar item).1) m

/-- The fresh empty table pair `BuildTable` starts from. -/
def LRTable.emptyTable : LRTable := ⟨⟨[]⟩, ⟨[]⟩, ⟨[]⟩, ⟨[]⟩⟩

/-- `Parser.BuildTable` from `table.go`: build fresh tables and insert every
state of the (externally computed) automaton. -/
def BuildTable (states : List State) (grammar : Grammar) : LRTable :=
  states.foldl (fun m s => LRTable.Insert m s grammar) LRTable.emptyTable

/-- `SymbolTableItemType` from `table.go`. -/
inductive SymbolTableItemType where
  | Variable
  | Array
  | Constant
  | Unknown
deriving DecidableEq, Repr

/-- `SymbolTableItem` from `table.go` (the source's field `Type` is spelled
`ItemType` here because `Type` is reserved in Lean). -/
structure SymbolTableItem where
  Variable : String
  ItemType : SymbolTableItemType
  Address : Int
  UnderlyingType : String
  VariableSize : Int
  ArraySize : Int
  Line : Int
  Pos : Int
deriving DecidableEq, Repr

/-- `Scope` from `table.go`.  The source's `Parent *Scope` back-pointer is
not stored in the scope: the chain of open scopes is kept as a list in the
symbol table (head = current scope, tail = its parent chain), which is
exactly the structure the `Parent` pointers form. -/
structure Scope where
  ID : Nat
  Level : Nat
  Items : List (String × SymbolTableItem)
deriving DecidableEq, Repr

/-- The errors `table.go`'s symbol-table methods build with `fmt.Errorf`,
plus a constructor for arbitrary errors returned by caller-supplied hooks. -/
inductive STErr where
  | noScopeToExit
  | noScopeToRegister
  | alreadyExists (name : String)
  | invalidVariableSize (name : String)
  | noScopeToLookup
  | notFound (name : String)
  | hookFailure (msg : String)
deriving DecidableEq, Repr

/-- `SymbolTable` from `table.go`.  `CurrentScope` is the chain of open
scopes (head = the current scope; `[]` = the source's nil pointer);
`LegacyScopes` is the append-only creation history. -/
structure SymbolTable where
  LegacyScopes : List Scope
  CurrentScope : List Scope
  EnterFunction : Option (Scope → Option STErr)
  ExitFunction : Option (Scope → Option STErr)
  addrCounter : Int
  constAddr : Int

/-- `initialAddr = 0x10000000` from `table.go`. -/
def initialAddr : Int := 0x10000000

/-- `constantAddr = 0x20000000` from `table.go`. -/
def constantAddr : Int := 0x20000000

/-- `NewSymbolTable` from `table.go`. -/
def NewSymbolTable (enterFn exitFn : Option (Scope → Option STErr)) : SymbolTable :=
  ⟨[], [], enterFn, exitFn, initialAddr, constantAddr⟩

/-- The scope `EnterScope` builds: id = the creation-history length, level 0
at the root and current level + 1 otherwise, empty declaration map. -/
def SymbolTable.nextScope (st : SymbolTable) : Scope :=
  match st.CurrentScope with
  | [] => ⟨st.LegacyScopes.length, 0, []⟩
  | cur :: _ => ⟨st.LegacyScopes.length, cur.Level + 1, []⟩

/-- `SymbolTable.EnterScope` from `table.go`: the new scope is linked, made
current and appended to the history before the enter hook runs, so a hook
failure propagates with the scope already created. -/
def SymbolTable.EnterScope (st : SymbolTable) : SymbolTable × Option STErr :=
  let sc := st.nextScope
  let st' := { st with CurrentScope := sc :: st.CurrentScope,
                       LegacyScopes := st.LegacyScopes ++ [sc] }
  match st.EnterFunction with
  | some f =>
    match f sc with
    | some e => (st', some e)
    | none => (st', none)
  | none => (st', none)

/-- `SymbolTable.ExitScope` from `table.go`: error (and no state change) when
no scope is open or the exit hook fails; otherwise the current scope becomes
its parent. -/
def SymbolTable.ExitScope (st : SymbolTable) : SymbolTable × Option STErr :=
  match st.CurrentScope with
  | [] => (st, some STErr.noScopeToExit)
  | cur :: rest =>
    match st.ExitFunction with
    | some f =>
      match f cur with
      | some e => (st, some e)
      | none => ({ st with CurrentScope := rest }, none)
    | none => ({ st with CurrentScope := rest }, none)

/-- `SymbolTable.Register` from `table.go`.  The source inserts the item
pointer into the current scope's map and then assigns `item.Address` and
advances the counter through that pointer; here the updated item is computed
first and stored, which yields the same map, item and counter.  The returned
triple is (table after the call, item after the call, error). -/
def SymbolTable.Register (st : SymbolTable) (item : SymbolTableItem) :
    SymbolTable × SymbolTableItem × Option STErr :=
  match st.CurrentScope with
  | [] => (st, item, some STErr.noScopeToRegister)
  | cur :: rest =>
    if (assocGet cur.Items item.Variable).isSome then
      (st, item, some (STErr.alreadyExists item.Variable))
    else if item.VariableSize ≤ 0 then
      (st, item, some (STErr.invalidVariableSize item.Variable))
    else
      match item.ItemType with
      | SymbolTableItemType.Variable =>
        let item' := { item with Address := st.addrCounter }
        let c := st.addrCounter + Int.tdiv item.VariableSize 4
        let c := if Int.tdiv item.VariableSize 4 * 4 ≠ item.VariableSize then c + 1 else c
        ({ st with CurrentScope := { cur with Items := assocSet cur.Items item.Variable item' } :: rest,
                   addrCounter := c }, item', none)
      | SymbolTableItemType.Array =>
        let item' := { item with Address := st.addrCounter }
        let sz := item.VariableSize * item.ArraySize
        let c := st.addrCounter + Int.tdiv sz 4
        let c := if Int.tdiv sz 4 * 4 ≠ sz then c + 1 else c
        ({ st with CurrentScope := { cur with Items := assocSet cur.Items item.Variable item' } :: rest,
                   addrCounter := c }, item', none)
      | _ =>
        ({ st with CurrentScope := { cur with Items := assocSet cur.Items item.Variable item } :: rest },
          item, none)

/-- The parent-chain walk of `SymbolTable.Lookup` below the current scope:
a hit here reports `findInCurrentScope = false`. -/
def lookupParents (v : String) : List Scope → Option SymbolTableItem × Bool × Option STErr
  | [] => (none, false, some (STErr.notFound v))
  | sc :: rest =>
    match assocGet sc.Items v with
    | some item => (some item, false, none)
    | none => lookupParents v rest

/-- `SymbolTable.Lookup` from `table.go`: walk from the current scope through
the parent chain; the boolean is the source's `scope == st.CurrentScope`
comparison, i.e. whether the hit was in the current scope. -/
def SymbolTable.Lookup (st : SymbolTable) (v : String) :
    Option SymbolTableItem × Bool × Option STErr :=
  match st.CurrentScope with
  | [] => (none, false, some STErr.noScopeToLookup)
  | cur :: rest =>
    match assocGet cur.Items v with
    | some item => (some item, true, none)
    | none => lookupParents v rest

/-- `SymbolTable.TempAddr` from `table.go`: hand out the current counter and
advance it by the same truncate-then-round rule, registering nothing. -/
def SymbolTable.TempAddr (st : SymbolTable) (size : Int) : Int × SymbolTable :=
  let addr := st.addrCounter
  let c := st.addrCounter + Int.tdiv size 4
  let c := if Int.tdiv size 4 * 4 ≠ size then c + 1 else c
  (addr, { st with addrCounter := c })

/-- A call a semantic-analysis driver can make on one symbol table. -/
inductive STOp where
  | enterScope
  | exitScope
  | registerItem (item : SymbolTableItem)
  | tempAddr (size : Int)
deriving DecidableEq

/-- An observed allocation: the address a call handed out (`Address` of a
successfully registered Variable/Array, or the value `TempAddr` returned)
and the number of counter words the call consumed. -/
structure AllocRec where
  isTemp : Bool
  addr : Int
  words : Int
deriving DecidableEq, Repr

/-- Run one driver call, recording the allocation it hands out, if any. -/
def applyOp (st : SymbolTable) : STOp → SymbolTable × List AllocRec
  | STOp.enterScope => ((st.EnterScope).1, [])
  | STOp.exitScope => ((st.ExitScope).1, [])
  | STOp.registerItem item =>
    if (st.Register item).2.2 = none ∧
        (item.ItemType = SymbolTableItemType.Variable ∨ item.ItemType = SymbolTableItemType.Array) then
      ((st.Register item).1,
        [⟨false, (st.Register item).2.1.Address, (st.Register item).1.addrCounter - st.addrCounter⟩])
    else
      ((st.Register item).1, [])
  | STOp.tempAddr size =>
    ((st.TempAddr size).2, [⟨true, (st.TempAddr size).1, (st.TempAddr size).2.addrCounter - st.addrCounter⟩])

/-- Run a sequence of driver calls, concatenating the allocation records. -/
def runOps (st : SymbolTable) : List STOp → SymbolTable × List AllocRec
  | [] => (st, [])
  | op :: ops =>
    ((runOps (applyOp st op).1 ops).1, (applyOp st op).2 ++ (runOps (applyOp st op).1 ops).2)

/-- Sizes under which the word-rounding allocator moves forward: every
`TempAddr` size is positive and every registered Array item has a positive
length. -/
def opsOK : List STOp → Bool
  | [] => true
  | STOp.tempAddr size :: ops => 1 ≤ size && opsOK ops
  | STOp.registerItem item :: ops =>
    (item.ItemType ≠ SymbolTableItemType.Array || 1 ≤ item.ArraySize) && opsOK ops
  | _ :: ops => opsOK ops

/-- The records form one gap-free run of word ranges from `c` to `c'`, each
at least one word wide. -/
def chainedTo : Int → List AllocRec → Int → Prop
  | c, [], c' => c' = c
  | c, r :: rs, c' => r.addr = c ∧ 1 ≤ r.words ∧ chainedTo (c + r.words) rs c'

/-- Test fixture: a Variable declaration of the given name and byte size. -/
def vItem (n : String) (sz : Int) : SymbolTableItem :=
  ⟨n, SymbolTableItemType.Variable, 0, "", sz, 1, 0, 0⟩

/-- Test fixture: an Array declaration of the given name, element byte size
and length. -/
def aItem (n : String) (sz len : Int) : SymbolTableItem :=
  ⟨n, SymbolTableItemType.Array, 0, "", sz, len, 0, 0⟩

/-- Test fixture: a fresh symbol table with no hooks and one open scope. -/
def stOneScope : SymbolTable := ((NewSymbolTable none none).EnterScope).1

/-! ## Helper lemmas -/

theorem assocGet_mem {κ ν : Type} [DecidableEq κ] {l : List (κ × ν)} {k : κ} {v : ν}
    (h : assocGet l k = some v) : (k, v) ∈ l := by
  induction l with
  | nil => simp [assocGet] at h
  | cons p rest ih =>
    rw [assocGet] at h
    split at h
    · rename_i heq
      cases h
      exact List.mem_cons.mpr (Or.inl (by rw [← heq]))
    · exact List.mem_cons_of_mem _ (ih h)

theorem assocGet_set_self {κ ν : Type} [DecidableEq κ] (l : List (κ × ν)) (k : κ) (v : ν) :
    assocGet (assocSet l k v) k = some v := by
  induction l with
  | nil => simp [assocSet, assocGet]
  | cons p rest ih =>
    rw [assocSet]
    split
    · simp [assocGet]
    · rename_i hne
      rw [assocGet, if_neg hne]
      exact ih

theorem round4_eq (a s : Int) (h : 1 ≤ s) :
    (if Int.tdiv s 4 * 4 ≠ s then a + Int.tdiv s 4 + 1 else a + Int.tdiv s 4) = a + (s + 3) / 4 := by
  rw [Int.tdiv_eq_ediv (by omega) (by norm_num)]
  split <;> omega

theorem round4_pos (s : Int) (h : 1 ≤ s) : 1 ≤ (s + 3) / 4 := by omega

theorem getD_append_lt {α : Type} (l l' : List α) (a : Nat) (d : α) (h : a < l.length) :
    (l ++ l').getD a d = l.getD a d := by
  simp [List.getD, List.getElem?_append, h]

theorem getD_set_ne {α : Type} (l : List α) (a b : Nat) (c d : α) (h : a ≠ b) :
    (l.set a c).getD b d = l.getD b d := by
  simp [List.getD, List.getElem?_set_ne h]

theorem getD_set_self {α : Type} (l : List α) (a : Nat) (c d : α) (h : a < l.length) :
    (l.set a c).getD a d = c := by
  simp [List.getD, List.getElem?_set_self, h]

/-- Registering into a freshly allocated inner map (one appended past the end
of the heap) cannot change any lookup that goes through an inner map already
inside the heap. -/
theorem lookup_write_fresh {κ ν : Type} [DecidableEq κ] (t : GoMapRef κ ν) (h : GoMapHeap κ ν)
    (c : List (κ × ν)) (hWF : WFref t h) (s' : Int) (k' : κ) :
    GoMapRef.lookup t (GoMapHeap.write ⟨h.cells ++ [[]]⟩ h.cells.length c) s' k' =
      GoMapRef.lookup t h s' k' := by
  unfold GoMapRef.lookup
  cases hg : assocGet t.refs s' with
  | none => rfl
  | some a =>
    have ha : a < h.cells.length := hWF (s', a) (assocGet_mem hg)
    show assocGet (GoMapHeap.read (GoMapHeap.write ⟨h.cells ++ [[]]⟩ h.cells.length c) a) k' = _
    unfold GoMapHeap.read GoMapHeap.write
    rw [getD_set_ne _ _ _ _ _ (by omega), getD_append_lt _ _ _ _ ha]

theorem getD_append_len {α : Type} (l : List α) (x d : α) : (l ++ [x]).getD l.length d = x := by
  simp [List.getD, List.getElem?_concat_length]

/-- `ActionTable.Register` at a state absent from the outer map allocates a
fresh inner map past the end of the heap and writes only there. -/
theorem actionRegister_fresh (t : ActionTable) (h : GoMapHeap Terminal Action) (s : Int)
    (act : Action) (k : Terminal) (hnone : assocGet t.refs s = none) :
    (ActionTable.Register t h s act k).2.1 =
      GoMapHeap.write ⟨h.cells ++ [[]]⟩ h.cells.length (assocSet [] k act) := by
  unfold ActionTable.Register GoMapRef.ensure GoMapHeap.alloc
  rw [hnone]
  have hread : GoMapHeap.read ⟨h.cells ++ [[]]⟩ h.cells.length = ([] : List (Terminal × Action)) :=
    getD_append_len h.cells [] []
  simp only [hread, assocGet]

/-- `GotoTable.Register` at a state absent from the outer map allocates a
fresh inner map past the end of the heap and writes only there. -/
theorem gotoRegister_fresh (t : GotoTable) (h : GoMapHeap Symbol Int) (s n : Int)
    (sym : Symbol) (hnone : assocGet t.refs s = none) :
    (GotoTable.Register t h s n sym).2.1 =
      GoMapHeap.write ⟨h.cells ++ [[]]⟩ h.cells.length (assocSet [] sym n) := by
  unfold GotoTable.Register GoMapRef.ensure GoMapHeap.alloc
  rw [hnone]
  have hread : GoMapHeap.read ⟨h.cells ++ [[]]⟩ h.cells.length = ([] : List (Symbol × Int)) :=
    getD_append_len h.cells [] []
  simp only [hread]

/-- Full description of `ActionTable.Register` at a state absent from the
outer map: the state is bound to a fresh inner map holding only the new
action, and no error is reported. -/
theorem actionRegister_fresh_eq (t : ActionTable) (h : GoMapHeap Terminal Action) (s : Int)
    (act : Action) (k : Terminal) (hnone : assocGet t.refs s = none) :
    ActionTable.Register t h s act k =
      (⟨assocSet t.refs s h.cells.length⟩,
        GoMapHeap.write ⟨h.cells ++ [[]]⟩ h.cells.length (assocSet [] k act), none) := by
  unfold ActionTable.Register GoMapRef.ensure GoMapHeap.alloc
  rw [hnone]
  have hread : GoMapHeap.read ⟨h.cells ++ [[]]⟩ h.cells.length = ([] : List (Terminal × Action)) :=
    getD_append_len h.cells [] []
  simp only [hread, assocGet]

/-- Full description of `ActionTable.Register` at an existing state when the
new action is not a REDUCE: neither conflict guard can fire, so the slot is
overwritten and no error is reported. -/
theorem actionRegister_existing_eq (t : ActionTable) (h : GoMapHeap Terminal Action) (s : Int)
    (a : Nat) (act : Action) (k : Terminal) (hg : assocGet t.refs s = some a)
    (hnr : act.Type' ≠ ActionType.REDUCE) :
    ActionTable.Register t h s act k =
      (t, GoMapHeap.write h a (assocSet (GoMapHeap.read h a) k act), none) := by
  unfold ActionTable.Register GoMapRef.ensure
  rw [hg]
  cases hc : assocGet (GoMapHeap.read h a) k with
  | none => simp only [hc]
  | some old =>
    have h1 : ¬(old.Type' = ActionType.SHIFT ∧ act.Type' = ActionType.REDUCE) :=
      fun hand => hnr hand.2
    have h2 : ¬(old.Type' = ActionType.REDUCE ∧ act.Type' = ActionType.REDUCE) :=
      fun hand => hnr hand.2
    simp only [hc, if_neg h1, if_neg h2]

/-- Registering a non-REDUCE action never errors, and the registered slot
reads back as that action. -/
theorem actionRegister_writes (t : ActionTable) (h : GoMapHeap Terminal Action) (s : Int)
    (act : Action) (k : Terminal) (hWF : WFref t h) (hnr : act.Type' ≠ ActionType.REDUCE) :
    (ActionTable.Register t h s act k).2.2 = none ∧
    GoMapRef.lookup (ActionTable.Register t h s act k).1 (ActionTable.Register t h s act k).2.1
      s k = some act := by
  cases hg : assocGet t.refs s with
  | none =>
    rw [actionRegister_fresh_eq t h s act k hg]
    refine ⟨rfl, ?_⟩
    have hlen : h.cells.length < (GoMapHeap.mk (κ := Terminal) (ν := Action) (h.cells ++ [[]])).cells.length := by
      simp
    simp [GoMapRef.lookup, GoMapHeap.read, GoMapHeap.write, assocGet_set_self,
      getD_set_self _ _ _ _ hlen]
  | some a =>
    have ha : a < h.cells.length := hWF (s, a) (assocGet_mem hg)
    rw [actionRegister_existing_eq t h s a act k hg hnr]
    refine ⟨rfl, ?_⟩
    simp [GoMapRef.lookup, GoMapHeap.read, GoMapHeap.write, hg, List.getD,
      List.getElem?_set_self, ha, assocGet_set_self]

/-- When `Register` returns an error, the whole table state and the item are
returned unchanged: every check precedes every mutation in the source. -/
theorem register_err_frame (st : SymbolTable) (item : SymbolTableItem) (e : STErr)
    (he : (st.Register item).2.2 = some e) :
    (st.Register item).1 = st ∧ (st.Register item).2.1 = item := by
  unfold SymbolTable.Register at he ⊢
  cases hcs : st.CurrentScope with
  | nil => simp [hcs]
  | cons cur rest =>
    simp only [hcs] at he ⊢
    by_cases h1 : (assocGet cur.Items item.Variable).isSome = true
    · simp [if_pos h1]
    · simp only [if_neg h1] at he ⊢
      by_cases h2 : item.VariableSize ≤ 0
      · simp [if_pos h2]
      · simp only [if_neg h2] at he ⊢
        cases hk : item.ItemType <;> simp [hk] at he

/-- A successful `Register` of a Variable item: the address handed out is the
counter before the call and the counter advances by `⌈size/4⌉` words. -/
theorem register_var_success (st : SymbolTable) (item : SymbolTableItem)
    (hk : item.ItemType = SymbolTableItemType.Variable)
    (he : (st.Register item).2.2 = none) :
    1 ≤ item.VariableSize ∧
    (st.Register item).2.1.Address = st.addrCounter ∧
    (st.Register item).1.addrCounter = st.addrCounter + (item.VariableSize + 3) / 4 := by
  unfold SymbolTable.Register at he ⊢
  cases hcs : st.CurrentScope with
  | nil => simp only [hcs] at he; cases he
  | cons cur rest =>
    simp only [hcs] at he ⊢
    by_cases h1 : (assocGet cur.Items item.Variable).isSome = true
    · simp only [if_pos h1] at he; cases he
    · simp only [if_neg h1] at he ⊢
      by_cases h2 : item.VariableSize ≤ 0
      · simp only [if_pos h2] at he; cases he
      · simp only [if_neg h2, hk] at he ⊢
        refine ⟨by omega, by simp, ?_⟩
        show (if Int.tdiv item.VariableSize 4 * 4 ≠ item.VariableSize
            then st.addrCounter + Int.tdiv item.VariableSize 4 + 1
            else st.addrCounter + Int.tdiv item.VariableSize 4) = _
        exact round4_eq st.addrCounter item.VariableSize (by omega)

/-- A successful `Register` of an Array item of positive length: the address
handed out is the counter before the call and the counter advances by
`⌈size·len/4⌉` words. -/
theorem register_arr_success (st : SymbolTable) (item : SymbolTableItem)
    (hk : item.ItemType = SymbolTableItemType.Array)
    (hlen : 1 ≤ item.ArraySize)
    (he : (st.Register item).2.2 = none) :
    1 ≤ item.VariableSize * item.ArraySize ∧
    (st.Register item).2.1.Address = st.addrCounter ∧
    (st.Register item).1.addrCounter =
      st.addrCounter + (item.VariableSize * item.ArraySize + 3) / 4 := by
  unfold SymbolTable.Register at he ⊢
  cases hcs : st.CurrentScope with
  | nil => simp only [hcs] at he; cases he
  | cons cur rest =>
    simp only [hcs] at he ⊢
    by_cases h1 : (assocGet cur.Items item.Variable).isSome = true
    · simp only [if_pos h1] at he; cases he
    · simp only [if_neg h1] at he ⊢
      by_cases h2 : item.VariableSize ≤ 0
      · simp only [if_pos h2] at he; cases he
      · have hprod : 1 ≤ item.VariableSize * item.ArraySize := by
          have : 0 < item.VariableSize * item.ArraySize :=
            mul_pos (by omega) (by omega)
          omega
        simp only [if_neg h2, hk] at he ⊢
        refine ⟨hprod, by simp, ?_⟩
        show (if Int.tdiv (item.VariableSize * item.ArraySize) 4 * 4 ≠
              item.VariableSize * item.ArraySize
            then st.addrCounter + Int.tdiv (item.VariableSize * item.ArraySize) 4 + 1
            else st.addrCounter + Int.tdiv (item.VariableSize * item.ArraySize) 4) = _
        exact round4_eq st.addrCounter _ hprod

/-- A successful `Register` of a Constant or Unknown item does not move the
address counter. -/
theorem register_other_counter (st : SymbolTable) (item : SymbolTableItem)
    (hk1 : item.ItemType ≠ SymbolTableItemType.Variable)
    (hk2 : item.ItemType ≠ SymbolTableItemType.Array) :
    (st.Register item).1.addrCounter = st.addrCounter := by
  unfold SymbolTable.Register
  cases hcs : st.CurrentScope with
  | nil => rfl
  | cons cur rest =>
    by_cases h1 : (assocGet cur.Items item.Variable).isSome = true
    · simp [if_pos h1]
    · simp only [if_neg h1]
      by_cases h2 : item.VariableSize ≤ 0
      · simp [if_pos h2]
      · cases hk : item.ItemType
        · exact absurd hk hk1
        · exact absurd hk hk2
        · simp [if_neg h2, hk]
        · simp [if_neg h2, hk]

/-- `EnterScope` always produces the same successor state — the new scope
linked, made current, and appended to the history — whatever the hook does. -/
theorem enterScope_run (st : SymbolTable) :
    (st.EnterScope).1 = { st with CurrentScope := st.nextScope :: st.CurrentScope,
                                  LegacyScopes := st.LegacyScopes ++ [st.nextScope] } := by
  unfold SymbolTable.EnterScope
  cases hf : st.EnterFunction with
  | none => simp only [hf]
  | some f =>
    simp only [hf]
    cases hfe : f st.nextScope with
    | none => simp only [hfe]
    | some e => simp only [hfe]

/-- `ExitScope` never moves the address counter. -/
theorem exitScope_addrCounter (st : SymbolTable) :
    (st.ExitScope).1.addrCounter = st.addrCounter := by
  unfold SymbolTable.ExitScope
  cases st.CurrentScope with
  | nil => rfl
  | cons cur rest =>
    cases st.ExitFunction with
    | none => rfl
    | some f =>
      cases hfc : f cur with
      | none => simp only [hfc]
      | some e => simp only [hfc]

/-- `EnterScope` never moves the address counter. -/
theorem enterScope_addrCounter (st : SymbolTable) :
    (st.EnterScope).1.addrCounter = st.addrCounter := by
  rw [enterScope_run]

/-- `TempAddr` at a positive size returns the current counter and advances it
by `⌈size/4⌉` words. -/
theorem tempAddr_counter (st : SymbolTable) (size : Int) (h : 1 ≤ size) :
    (st.TempAddr size).1 = st.addrCounter ∧
    (st.TempAddr size).2.addrCounter = st.addrCounter + (size + 3) / 4 := by
  refine ⟨rfl, ?_⟩
  show (if Int.tdiv size 4 * 4 ≠ size
      then st.addrCounter + Int.tdiv size 4 + 1
      else st.addrCounter + Int.tdiv size 4) = _
  exact round4_eq st.addrCounter size h

/-! ## Claims -/

/-- C3, counterexample: `Copy` is `maps.Clone`, a shallow clone.  Starting
from the table `{0 ↦ {"a" ↦ SHIFT 1}}`, registering `ACCEPT` at the
existing state 0 under the fresh terminal `"b"` *on the copy* mutates the
shared inner map, so the same lookup on the original changes from `none` to
`some (ACCEPT, 0)` — the claim's independence fails at this input. -/
theorem C3_counterexample :
    GoMapRef.lookup (⟨[(0, 0)]⟩ : ActionTable) (⟨[[("a", ⟨ActionType.SHIFT, 1⟩)]]⟩ : GoMapHeap Terminal Action) 0 "b" = none ∧
    GoMapRef.lookup (⟨[(0, 0)]⟩ : ActionTable)
      (ActionTable.Register (ActionTable.Copy ⟨[(0, 0)]⟩)
        (⟨[[("a", ⟨ActionType.SHIFT, 1⟩)]]⟩ : GoMapHeap Terminal Action) 0 ⟨ActionType.ACCEPT, 0⟩ "b").2.1
      0 "b" = some ⟨ActionType.ACCEPT, 0⟩ := by
  decide

/-- C3, amended: `Copy` duplicates only the top level.  A mutation of the
copy at a state index with no entry at copy time allocates a fresh inner map
and leaves every lookup on the original unchanged (mutations at a state index
already present go through the shared inner map and are visible through the
original, as the counterexample shows). -/
theorem C3_copy_toplevel_independent :
    (∀ (t : ActionTable) (h : GoMapHeap Terminal Action) (s : Int) (act : Action) (k : Terminal)
        (s' : Int) (k' : Terminal),
      WFref t h → assocGet t.refs s = none →
      GoMapRef.lookup t ((ActionTable.Register (ActionTable.Copy t) h s act k).2.1) s' k' =
        GoMapRef.lookup t h s' k') ∧
    (∀ (t : GotoTable) (h : GoMapHeap Symbol Int) (s n : Int) (sym : Symbol)
        (s' : Int) (sym' : Symbol),
      WFref t h → assocGet t.refs s = none →
      GoMapRef.lookup t ((GotoTable.Register (GotoTable.Copy t) h s n sym).2.1) s' sym' =
        GoMapRef.lookup t h s' sym') := by
  constructor
  · intro t h s act k s' k' hWF hnone
    rw [show ActionTable.Copy t = t from rfl, actionRegister_fresh t h s act k hnone]
    exact lookup_write_fresh t h _ hWF s' k'
  · intro t h s n sym s' sym' hWF hnone
    rw [show GotoTable.Copy t = t from rfl, gotoRegister_fresh t h s n sym hnone]
    exact lookup_write_fresh t h _ hWF s' sym'

/-- C3, witness: the amended theorem applied at a concrete table and heap:
registering at the absent state 5 on the copy leaves the original's lookup at
(0, "a") unchanged. -/
theorem C3_witness :
    GoMapRef.lookup (⟨[(0, 0)]⟩ : ActionTable)
      ((ActionTable.Register (ActionTable.Copy ⟨[(0, 0)]⟩)
        (⟨[[("a", ⟨ActionType.SHIFT, 1⟩)]]⟩ : GoMapHeap Terminal Action) 5 ⟨ActionType.ACCEPT, 0⟩ "b").2.1)
      0 "a" =
      GoMapRef.lookup (⟨[(0, 0)]⟩ : ActionTable)
        (⟨[[("a", ⟨ActionType.SHIFT, 1⟩)]]⟩ : GoMapHeap Terminal Action) 0 "a" ∧
    GoMapRef.lookup (⟨[(3, 0)]⟩ : GotoTable)
      ((GotoTable.Register (GotoTable.Copy ⟨[(3, 0)]⟩)
        (⟨[[("S", 7)]]⟩ : GoMapHeap Symbol Int) 5 9 "B").2.1)
      3 "S" =
      GoMapRef.lookup (⟨[(3, 0)]⟩ : GotoTable) (⟨[[("S", 7)]]⟩ : GoMapHeap Symbol Int) 3 "S" :=
  ⟨C3_copy_toplevel_independent.1 ⟨[(0, 0)]⟩ ⟨[[("a", ⟨ActionType.SHIFT, 1⟩)]]⟩ 5 ⟨ActionType.ACCEPT, 0⟩ "b" 0 "a"
      (by intro p hp; simp at hp; simp [hp]) (by decide),
    C3_copy_toplevel_independent.2 ⟨[(3, 0)]⟩ ⟨[[("S", 7)]]⟩ 5 9 "B" 3 "S"
      (by intro p hp; simp at hp; simp [hp]) (by decide)⟩

/-- C1: evaluation of `ActionTable.Register` at the failing input.  At the
empty table, registering `REDUCE 1` at (state 0, terminal "a") and then
`SHIFT 2` at the same slot returns no error either time, and the slot ends
holding `SHIFT 2`: the REDUCE-then-SHIFT collision is not detected, the
*later* action wins, and (per `LRTable.Insert`, whose error handling is
commented out) no conflict ever reaches the caller of table construction —
against the claim and §4.1/§9 of the spec. -/
theorem C1_code_bug_eval :
    (ActionTable.Register (⟨[]⟩ : ActionTable) (⟨[]⟩ : GoMapHeap Terminal Action)
        0 ⟨ActionType.REDUCE, 1⟩ "a").2.2 = none ∧
    (ActionTable.Register
        (ActionTable.Register (⟨[]⟩ : ActionTable) (⟨[]⟩ : GoMapHeap Terminal Action)
          0 ⟨ActionType.REDUCE, 1⟩ "a").1
        (ActionTable.Register (⟨[]⟩ : ActionTable) (⟨[]⟩ : GoMapHeap Terminal Action)
          0 ⟨ActionType.REDUCE, 1⟩ "a").2.1
        0 ⟨ActionType.SHIFT, 2⟩ "a").2.2 = none ∧
    GoMapRef.lookup
      (ActionTable.Register
        (ActionTable.Register (⟨[]⟩ : ActionTable) (⟨[]⟩ : GoMapHeap Terminal Action)
          0 ⟨ActionType.REDUCE, 1⟩ "a").1
        (ActionTable.Register (⟨[]⟩ : ActionTable) (⟨[]⟩ : GoMapHeap Terminal Action)
          0 ⟨ActionType.REDUCE, 1⟩ "a").2.1
        0 ⟨ActionType.SHIFT, 2⟩ "a").1
      (ActionTable.Register
        (ActionTable.Register (⟨[]⟩ : ActionTable) (⟨[]⟩ : GoMapHeap Terminal Action)
          0 ⟨ActionType.REDUCE, 1⟩ "a").1
        (ActionTable.Register (⟨[]⟩ : ActionTable) (⟨[]⟩ : GoMapHeap Terminal Action)
          0 ⟨ActionType.REDUCE, 1⟩ "a").2.1
        0 ⟨ActionType.SHIFT, 2⟩ "a").2.1
      0 "a" = some ⟨ActionType.SHIFT, 2⟩ := by
  decide

/-- C2, counterexample: the item `A → ε` with the dot before the epsilon
marker and lookahead "a" in state 0 *does* put an entry into the ACTION
table: `LRTable.Insert` classifies an epsilon-at-the-dot item as completed
(line 29 of `table.go`) and registers `REDUCE 1` at (0, "a"), so "adds no
entry to either table" fails at this input. -/
theorem C2_counterexample :
    GoMapRef.lookup
      (LRTable.Insert LRTable.emptyTable
        ⟨0, [⟨⟨"A", [EPSILON]⟩, 0, "a"⟩], []⟩
        ⟨[⟨"S'", ["S"]⟩, ⟨"A", [EPSILON]⟩], ⟨"S'", ["S"]⟩, ["S'", "S", "A"]⟩).actionTable
      (LRTable.Insert LRTable.emptyTable
        ⟨0, [⟨⟨"A", [EPSILON]⟩, 0, "a"⟩], []⟩
        ⟨[⟨"S'", ["S"]⟩, ⟨"A", [EPSILON]⟩], ⟨"S'", ["S"]⟩, ["S'", "S", "A"]⟩).actionHeap
      0 "a" = some ⟨ActionType.REDUCE, 1⟩ := by
  decide

/-- C2, amended: an item whose symbol immediately after the dot is the
epsilon marker contributes no SHIFT action and no GOTO entry; it is instead
treated as completed, and the registration it demands is a REDUCE (or ACCEPT)
ACTION entry, leaving the GOTO table and its heap untouched. -/
theorem C2_epsilon_item_no_shift_goto :
    ∀ (m : LRTable) (state : State) (grammar : Grammar) (item : Item),
      item.Dot < item.production.Body.length →
      Symbol.IsEpsilon (item.production.Body.getD item.Dot EPSILON) = true →
      (∃ act term, itemEvent state grammar item = RegEvent.actionReg state.Index act term ∧
        (act.Type' = ActionType.REDUCE ∨ act.Type' = ActionType.ACCEPT)) ∧
      (insertItem m state grammar item).1.gotoTable = m.gotoTable ∧
      (insertItem m state grammar item).1.gotoHeap = m.gotoHeap := by
  intro m state grammar item _ he
  have hev : ∃ act term, itemEvent state grammar item = RegEvent.actionReg state.Index act term ∧
      (act.Type' = ActionType.REDUCE ∨ act.Type' = ActionType.ACCEPT) := by
    unfold itemEvent
    rw [if_pos (Or.inr he)]
    split
    · exact ⟨⟨ActionType.ACCEPT, 0⟩, TERMINATE, rfl, Or.inr rfl⟩
    · exact ⟨⟨ActionType.REDUCE, Grammar.GetIndex grammar item.production⟩, item.Lookahead,
        rfl, Or.inl rfl⟩
  refine ⟨hev, ?_, ?_⟩ <;>
  · obtain ⟨act, term, hev', _⟩ := hev
    unfold insertItem
    rw [hev']
    unfold applyEvent
    rfl

/-- C2, witness: the amended theorem applied to the epsilon item `A → ε`
(dot 0, lookahead "a") of the counterexample's state. -/
theorem C2_witness :
    (∃ act term,
      itemEvent ⟨0, [⟨⟨"A", [EPSILON]⟩, 0, "a"⟩], []⟩
          ⟨[⟨"S'", ["S"]⟩, ⟨"A", [EPSILON]⟩], ⟨"S'", ["S"]⟩, ["S'", "S", "A"]⟩
          ⟨⟨"A", [EPSILON]⟩, 0, "a"⟩ = RegEvent.actionReg 0 act term ∧
        (act.Type' = ActionType.REDUCE ∨ act.Type' = ActionType.ACCEPT)) ∧
    (insertItem LRTable.emptyTable ⟨0, [⟨⟨"A", [EPSILON]⟩, 0, "a"⟩], []⟩
        ⟨[⟨"S'", ["S"]⟩, ⟨"A", [EPSILON]⟩], ⟨"S'", ["S"]⟩, ["S'", "S", "A"]⟩
        ⟨⟨"A", [EPSILON]⟩, 0, "a"⟩).1.gotoTable = LRTable.emptyTable.gotoTable ∧
    (insertItem LRTable.emptyTable ⟨0, [⟨⟨"A", [EPSILON]⟩, 0, "a"⟩], []⟩
        ⟨[⟨"S'", ["S"]⟩, ⟨"A", [EPSILON]⟩], ⟨"S'", ["S"]⟩, ["S'", "S", "A"]⟩
        ⟨⟨"A", [EPSILON]⟩, 0, "a"⟩).1.gotoHeap = LRTable.emptyTable.gotoHeap :=
  C2_epsilon_item_no_shift_goto LRTable.emptyTable
    ⟨0, [⟨⟨"A", [EPSILON]⟩, 0, "a"⟩], []⟩
    ⟨[⟨"S'", ["S"]⟩, ⟨"A", [EPSILON]⟩], ⟨"S'", ["S"]⟩, ["S'", "S", "A"]⟩
    ⟨⟨"A", [EPSILON]⟩, 0, "a"⟩ (by decide) (by decide)

/-- C4: a completed item (dot at the end of the body, or epsilon at the dot)
whose lookahead is TERMINATE and whose production structurally equals the
augmented production demands exactly an ACCEPT registration at
(state, TERMINATE) — never a REDUCE — and, on a well-formed table, the slot
(state, TERMINATE) then reads back as ACCEPT; any other completed item
demands exactly a REDUCE registration carrying the grammar's index of its
production, at (state, lookahead). -/
theorem C4_completed_items :
    ∀ (m : LRTable) (state : State) (grammar : Grammar) (item : Item),
      (item.Dot = item.production.Body.length ∨
        Symbol.IsEpsilon (item.production.Body.getD item.Dot EPSILON) = true) →
      ((item.Lookahead = TERMINATE ∧
          Production.Equals item.production grammar.AugmentedProduction = true) →
        itemEvent state grammar item =
          RegEvent.actionReg state.Index ⟨ActionType.ACCEPT, 0⟩ TERMINATE ∧
        RegEvent.isReduce (itemEvent state grammar item) = false ∧
        (WFref m.actionTable m.actionHeap →
          GoMapRef.lookup (insertItem m state grammar item).1.actionTable
            (insertItem m state grammar item).1.actionHeap state.Index TERMINATE =
            some ⟨ActionType.ACCEPT, 0⟩)) ∧
      (¬(item.Lookahead = TERMINATE ∧
          Production.Equals item.production grammar.AugmentedProduction = true) →
        itemEvent state grammar item =
          RegEvent.actionReg state.Index
            ⟨ActionType.REDUCE, Grammar.GetIndex grammar item.production⟩ item.Lookahead) := by
  intro m state grammar item hcomp
  constructor
  · intro hacc
    have hev : itemEvent state grammar item =
        RegEvent.actionReg state.Index ⟨ActionType.ACCEPT, 0⟩ TERMINATE := by
      unfold itemEvent
      rw [if_pos, if_pos hacc]
      rcases hcomp with hd | he
      · exact Or.inl hd
      · exact Or.inr he
    refine ⟨hev, by rw [hev]; rfl, ?_⟩
    intro hWF
    have hmain := actionRegister_writes m.actionTable m.actionHeap state.Index
      ⟨ActionType.ACCEPT, 0⟩ TERMINATE hWF (by simp)
    unfold insertItem
    rw [hev]
    exact hmain.2
  · intro hnacc
    unfold itemEvent
    rw [if_pos, if_neg hnacc]
    rcases hcomp with hd | he
    · exact Or.inl hd
    · exact Or.inr he

/-- C4, witness: the theorem applied to the completed augmented item
`S' → S •` with lookahead `$` in state 1, and to the completed item
`A → ε •` with lookahead "a" in the same state. -/
theorem C4_witness :
    (itemEvent ⟨1, [⟨⟨"S'", ["S"]⟩, 1, "$"⟩], []⟩
        ⟨[⟨"S'", ["S"]⟩, ⟨"A", [EPSILON]⟩], ⟨"S'", ["S"]⟩, ["S'", "S", "A"]⟩
        ⟨⟨"S'", ["S"]⟩, 1, "$"⟩ =
      RegEvent.actionReg 1 ⟨ActionType.ACCEPT, 0⟩ TERMINATE) ∧
    (RegEvent.isReduce (itemEvent ⟨1, [⟨⟨"S'", ["S"]⟩, 1, "$"⟩], []⟩
        ⟨[⟨"S'", ["S"]⟩, ⟨"A", [EPSILON]⟩], ⟨"S'", ["S"]⟩, ["S'", "S", "A"]⟩
        ⟨⟨"S'", ["S"]⟩, 1, "$"⟩) = false) ∧
    (GoMapRef.lookup
      (insertItem LRTable.emptyTable ⟨1, [⟨⟨"S'", ["S"]⟩, 1, "$"⟩], []⟩
        ⟨[⟨"S'", ["S"]⟩, ⟨"A", [EPSILON]⟩], ⟨"S'", ["S"]⟩, ["S'", "S", "A"]⟩
        ⟨⟨"S'", ["S"]⟩, 1, "$"⟩).1.actionTable
      (insertItem LRTable.emptyTable ⟨1, [⟨⟨"S'", ["S"]⟩, 1, "$"⟩], []⟩
        ⟨[⟨"S'", ["S"]⟩, ⟨"A", [EPSILON]⟩], ⟨"S'", ["S"]⟩, ["S'", "S", "A"]⟩
        ⟨⟨"S'", ["S"]⟩, 1, "$"⟩).1.actionHeap 1 TERMINATE = some ⟨ActionType.ACCEPT, 0⟩) ∧
    (itemEvent ⟨1, [⟨⟨"A", [EPSILON]⟩, 1, "a"⟩], []⟩
        ⟨[⟨"S'", ["S"]⟩, ⟨"A", [EPSILON]⟩], ⟨"S'", ["S"]⟩, ["S'", "S", "A"]⟩
        ⟨⟨"A", [EPSILON]⟩, 1, "a"⟩ =
      RegEvent.actionReg 1 ⟨ActionType.REDUCE, 1⟩ "a") := by
  have h1 := (C4_completed_items LRTable.emptyTable ⟨1, [⟨⟨"S'", ["S"]⟩, 1, "$"⟩], []⟩
      ⟨[⟨"S'", ["S"]⟩, ⟨"A", [EPSILON]⟩], ⟨"S'", ["S"]⟩, ["S'", "S", "A"]⟩
      ⟨⟨"S'", ["S"]⟩, 1, "$"⟩ (by decide)).1 (by decide)
  have h2 := (C4_completed_items LRTable.emptyTable ⟨1, [⟨⟨"A", [EPSILON]⟩, 1, "a"⟩], []⟩
      ⟨[⟨"S'", ["S"]⟩, ⟨"A", [EPSILON]⟩], ⟨"S'", ["S"]⟩, ["S'", "S", "A"]⟩
      ⟨⟨"A", [EPSILON]⟩, 1, "a"⟩ (by decide)).2 (by decide)
  exact ⟨h1.1, h1.2.1, h1.2.2 (by intro p hp; simp [LRTable.emptyTable] at hp), by rw [h2]; rfl⟩

/-- C5: every successful `Register` of a Variable item hands out the counter
value before the call as the address and advances the counter by exactly
`⌈size/4⌉` words; for an Array item (of positive length, per the data model)
by `⌈size·arrayLength/4⌉` words; in particular registering Variables of sizes
4, 6, 4 in sequence yields addresses `base`, `base+1`, `base+3`. -/
theorem C5_address_allocation :
    (∀ (st : SymbolTable) (item : SymbolTableItem),
      (st.Register item).2.2 = none → item.ItemType = SymbolTableItemType.Variable →
      (st.Register item).2.1.Address = st.addrCounter ∧
      (st.Register item).1.addrCounter = st.addrCounter + (item.VariableSize + 3) / 4) ∧
    (∀ (st : SymbolTable) (item : SymbolTableItem),
      (st.Register item).2.2 = none → item.ItemType = SymbolTableItemType.Array →
      1 ≤ item.ArraySize →
      (st.Register item).2.1.Address = st.addrCounter ∧
      (st.Register item).1.addrCounter =
        st.addrCounter + (item.VariableSize * item.ArraySize + 3) / 4) ∧
    ((stOneScope.Register (vItem "x" 4)).2.1.Address = initialAddr ∧
      (((stOneScope.Register (vItem "x" 4)).1.Register (vItem "y" 6)).2.1.Address =
        initialAddr + 1) ∧
      ((((stOneScope.Register (vItem "x" 4)).1.Register (vItem "y" 6)).1.Register
        (vItem "z" 4)).2.1.Address = initialAddr + 3)) := by
  refine ⟨?_, ?_, by decide, by decide, by decide⟩
  · intro st item he hk
    exact ⟨(register_var_success st item hk he).2.1, (register_var_success st item hk he).2.2⟩
  · intro st item he hk hlen
    exact ⟨(register_arr_success st item hk hlen he).2.1,
      (register_arr_success st item hk hlen he).2.2⟩

/-- C5, witness: the Variable part of the theorem applied to a size-5 item on
the one-scope fixture (5 rounds to 2 words), and the Array part applied to a
3-element array of byte size 2 (6 bytes round to 2 words). -/
theorem C5_witness :
    ((stOneScope.Register (vItem "w" 5)).2.1.Address = stOneScope.addrCounter ∧
      (stOneScope.Register (vItem "w" 5)).1.addrCounter =
        stOneScope.addrCounter + ((5 : Int) + 3) / 4) ∧
    ((stOneScope.Register (aItem "arr" 2 3)).2.1.Address = stOneScope.addrCounter ∧
      (stOneScope.Register (aItem "arr" 2 3)).1.addrCounter =
        stOneScope.addrCounter + ((2 : Int) * 3 + 3) / 4) :=
  ⟨C5_address_allocation.1 stOneScope (vItem "w" 5) (by decide) rfl,
    C5_address_allocation.2.1 stOneScope (aItem "arr" 2 3) (by decide) rfl (by decide)⟩

/-- C7: with a scope open, `Register` returns the duplicate-declaration error
exactly when the name is already declared in the current scope; a name absent
from the current scope (even if declared in an ancestor) registers without
error when its size is positive, and `Lookup` afterwards returns the newly
registered item with `findInCurrentScope = true`. -/
theorem C7_duplicate_and_shadowing :
    (∀ (st : SymbolTable) (item : SymbolTableItem) (cur : Scope) (rest : List Scope),
      st.CurrentScope = cur :: rest →
      ((st.Register item).2.2 = some (STErr.alreadyExists item.Variable) ↔
        (assocGet cur.Items item.Variable).isSome = true)) ∧
    (∀ (st : SymbolTable) (item : SymbolTableItem) (cur : Scope) (rest : List Scope),
      st.CurrentScope = cur :: rest →
      assocGet cur.Items item.Variable = none →
      1 ≤ item.VariableSize →
      (st.Register item).2.2 = none ∧
      (st.Register item).1.Lookup item.Variable =
        (some (st.Register item).2.1, true, none)) := by
  constructor
  · intro st item cur rest hcs
    unfold SymbolTable.Register
    simp only [hcs]
    by_cases h1 : (assocGet cur.Items item.Variable).isSome = true
    · simp [if_pos h1, h1]
    · simp only [if_neg h1]
      refine ⟨fun hcontra => ?_, fun h => absurd h h1⟩
      by_cases h2 : item.VariableSize ≤ 0
      · simp [if_pos h2] at hcontra
      · cases hk : item.ItemType <;> simp [if_neg h2, hk] at hcontra
  · intro st item cur rest hcs hget hsz
    have h2 : ¬item.VariableSize ≤ 0 := by omega
    unfold SymbolTable.Register
    simp only [hcs, hget]
    cases hk : item.ItemType <;>
      simp [if_neg h2, hk, SymbolTable.Lookup, assocGet_set_self]

/-- C7, witness: the theorem applied to a table whose current scope already
declares `x` (duplicate error), and to a table whose current scope is a fresh
child of a scope declaring `x` (shadowing succeeds and `Lookup` returns the
child's item with the current-scope flag set). -/
theorem C7_witness :
    ((⟨[], [⟨0, 0, [("x", vItem "x" 4)]⟩], none, none, initialAddr, constantAddr⟩ :
        SymbolTable).Register (vItem "x" 4)).2.2 = some (STErr.alreadyExists "x") ∧
    ((⟨[], [⟨1, 1, []⟩, ⟨0, 0, [("x", vItem "x" 4)]⟩], none, none, initialAddr, constantAddr⟩ :
        SymbolTable).Register (vItem "x" 6)).2.2 = none ∧
    ((⟨[], [⟨1, 1, []⟩, ⟨0, 0, [("x", vItem "x" 4)]⟩], none, none, initialAddr, constantAddr⟩ :
        SymbolTable).Register (vItem "x" 6)).1.Lookup "x" =
      (some ((⟨[], [⟨1, 1, []⟩, ⟨0, 0, [("x", vItem "x" 4)]⟩], none, none, initialAddr,
        constantAddr⟩ : SymbolTable).Register (vItem "x" 6)).2.1, true, none) :=
  ⟨(C7_duplicate_and_shadowing.1 _ (vItem "x" 4) ⟨0, 0, [("x", vItem "x" 4)]⟩ [] rfl).mpr
      (by decide),
    (C7_duplicate_and_shadowing.2 _ (vItem "x" 6) ⟨1, 1, []⟩ [⟨0, 0, [("x", vItem "x" 4)]⟩]
      rfl rfl (by decide)).1,
    (C7_duplicate_and_shadowing.2 _ (vItem "x" 6) ⟨1, 1, []⟩ [⟨0, 0, [("x", vItem "x" 4)]⟩]
      rfl rfl (by decide)).2⟩

/-- C8: `ExitScope` returns the no-open-scope error (and changes nothing)
when no scope is open; when the exit hook fails, the hook's error propagates
and the whole state — in particular the current scope — is unchanged; when
the hook succeeds or is absent, the current scope becomes its parent. -/
theorem C8_exit_scope :
    (∀ st : SymbolTable, st.CurrentScope = [] →
      st.ExitScope = (st, some STErr.noScopeToExit)) ∧
    (∀ (st : SymbolTable) (cur : Scope) (rest : List Scope) (f : Scope → Option STErr)
        (e : STErr),
      st.CurrentScope = cur :: rest → st.ExitFunction = some f → f cur = some e →
      st.ExitScope = (st, some e)) ∧
    (∀ (st : SymbolTable) (cur : Scope) (rest : List Scope),
      st.CurrentScope = cur :: rest →
      (st.ExitFunction = none ∨ ∃ f, st.ExitFunction = some f ∧ f cur = none) →
      st.ExitScope = ({ st with CurrentScope := rest }, none)) := by
  refine ⟨?_, ?_, ?_⟩
  · intro st h
    unfold SymbolTable.ExitScope
    simp only [h]
  · intro st cur rest f e hcs hf he
    unfold SymbolTable.ExitScope
    simp only [hcs, hf, he]
  · intro st cur rest hcs hok
    unfold SymbolTable.ExitScope
    rcases hok with hf | ⟨f, hf, he⟩
    · simp only [hcs, hf]
    · simp only [hcs, hf, he]

/-- C8, witness: the theorem applied to a table with no open scope, to a
table whose exit hook fails, and to a hook-free table with one open scope. -/
theorem C8_witness :
    (NewSymbolTable none none).ExitScope =
      (NewSymbolTable none none, some STErr.noScopeToExit) ∧
    (⟨[⟨0, 0, []⟩], [⟨0, 0, []⟩], none, some fun _ => some (STErr.hookFailure "exit failed"),
        initialAddr, constantAddr⟩ : SymbolTable).ExitScope =
      (⟨[⟨0, 0, []⟩], [⟨0, 0, []⟩], none, some fun _ => some (STErr.hookFailure "exit failed"),
        initialAddr, constantAddr⟩, some (STErr.hookFailure "exit failed")) ∧
    (⟨[⟨0, 0, []⟩], [⟨0, 0, []⟩], none, none, initialAddr, constantAddr⟩ :
        SymbolTable).ExitScope =
      (⟨[⟨0, 0, []⟩], [], none, none, initialAddr, constantAddr⟩, none) :=
  ⟨C8_exit_scope.1 (NewSymbolTable none none) rfl,
    C8_exit_scope.2.1 _ ⟨0, 0, []⟩ [] (fun _ => some (STErr.hookFailure "exit failed"))
      (STErr.hookFailure "exit failed") rfl rfl rfl,
    C8_exit_scope.2.2 _ ⟨0, 0, []⟩ [] rfl (Or.inl rfl)⟩

/-- C9: when the enter hook fails, `EnterScope` still creates the new scope,
links it in front of the previous current scope, appends it to the history
and makes it current — and propagates the hook's error; the new scope's
level is 0 at the root and previous-level + 1 otherwise, and its id equals
its position in the creation-ordered history. -/
theorem C9_enter_hook_error :
    ∀ (st : SymbolTable) (f : Scope → Option STErr) (e : STErr),
      st.EnterFunction = some f → f st.nextScope = some e →
      st.EnterScope =
        ({ st with CurrentScope := st.nextScope :: st.CurrentScope,
                   LegacyScopes := st.LegacyScopes ++ [st.nextScope] }, some e) ∧
      st.nextScope.ID = st.LegacyScopes.length ∧
      st.nextScope.Level =
        (match st.CurrentScope with
          | [] => 0
          | cur :: _ => cur.Level + 1) ∧
      (st.EnterScope).1.LegacyScopes.getD st.nextScope.ID ⟨0, 0, []⟩ = st.nextScope := by
  intro st f e hf he
  have hid : st.nextScope.ID = st.LegacyScopes.length := by
    unfold SymbolTable.nextScope
    cases st.CurrentScope <;> rfl
  refine ⟨?_, hid, ?_, ?_⟩
  · unfold SymbolTable.EnterScope
    simp only [hf, he]
  · unfold SymbolTable.nextScope
    cases st.CurrentScope <;> rfl
  · rw [enterScope_run]
    show (st.LegacyScopes ++ [st.nextScope]).getD st.nextScope.ID ⟨0, 0, []⟩ = st.nextScope
    rw [hid, getD_append_len]

/-- C9, witness: the theorem applied to a fresh symbol table whose enter hook
always fails. -/
theorem C9_witness :
    (NewSymbolTable (some fun _ => some (STErr.hookFailure "enter failed")) none).EnterScope =
      (⟨[⟨0, 0, []⟩], [⟨0, 0, []⟩],
        some fun _ => some (STErr.hookFailure "enter failed"), none,
        initialAddr, constantAddr⟩, some (STErr.hookFailure "enter failed")) ∧
    (NewSymbolTable (some fun _ => some (STErr.hookFailure "enter failed")) none).nextScope.ID
      = 0 ∧
    (NewSymbolTable (some fun _ => some (STErr.hookFailure "enter failed")) none).nextScope.Level
      = 0 ∧
    ((NewSymbolTable (some fun _ => some (STErr.hookFailure "enter failed"))
        none).EnterScope).1.LegacyScopes.getD 0 ⟨0, 0, []⟩ = ⟨0, 0, []⟩ :=
  C9_enter_hook_error
    (NewSymbolTable (some fun _ => some (STErr.hookFailure "enter failed")) none)
    (fun _ => some (STErr.hookFailure "enter failed"))
    (STErr.hookFailure "enter failed") rfl rfl

/-- C10: whenever `Register` returns an error — no open scope, duplicate name
in the current scope, or non-positive size — the whole table state (scopes,
declaration maps, address counter) and the item (in particular its `Address`
field) are returned unchanged. -/
theorem C10_register_error_frame :
    ∀ (st : SymbolTable) (item : SymbolTableItem) (e : STErr),
      (st.Register item).2.2 = some e →
      (st.Register item).1 = st ∧ (st.Register item).2.1 = item :=
  fun st item e he => register_err_frame st item e he

/-- C10, witness: the theorem applied to the three error inputs — no open
scope, a duplicate name, and a size-0 declaration. -/
theorem C10_witness :
    (((NewSymbolTable none none).Register (vItem "x" 4)).1 = NewSymbolTable none none ∧
      ((NewSymbolTable none none).Register (vItem "x" 4)).2.1 = vItem "x" 4) ∧
    (((⟨[], [⟨0, 0, [("x", vItem "x" 4)]⟩], none, none, initialAddr, constantAddr⟩ :
        SymbolTable).Register (vItem "x" 6)).1 =
        ⟨[], [⟨0, 0, [("x", vItem "x" 4)]⟩], none, none, initialAddr, constantAddr⟩ ∧
      ((⟨[], [⟨0, 0, [("x", vItem "x" 4)]⟩], none, none, initialAddr, constantAddr⟩ :
        SymbolTable).Register (vItem "x" 6)).2.1 = vItem "x" 6) ∧
    ((stOneScope.Register (vItem "bad" 0)).1 = stOneScope ∧
      (stOneScope.Register (vItem "bad" 0)).2.1 = vItem "bad" 0) :=
  ⟨C10_register_error_frame (NewSymbolTable none none) (vItem "x" 4)
      STErr.noScopeToRegister rfl,
    C10_register_error_frame _ (vItem "x" 6) (STErr.alreadyExists "x") rfl,
    C10_register_error_frame stOneScope (vItem "bad" 0)
      (STErr.invalidVariableSize "bad") rfl⟩

/-- Under positive temp sizes and positive registered array lengths, the
allocation records of a driver-call sequence form one gap-free run of word
ranges from the incoming counter to the outgoing counter. -/
theorem runOps_chained (ops : List STOp) :
    ∀ st : SymbolTable, opsOK ops = true →
      chainedTo st.addrCounter (runOps st ops).2 (runOps st ops).1.addrCounter := by
  induction ops with
  | nil =>
    intro st _
    exact rfl
  | cons op ops ih =>
    intro st hok
    cases op with
    | enterScope =>
      have h := ih (st.EnterScope).1 (by simpa [opsOK] using hok)
      rw [enterScope_addrCounter] at h
      simpa [runOps, applyOp] using h
    | exitScope =>
      have h := ih (st.ExitScope).1 (by simpa [opsOK] using hok)
      rw [exitScope_addrCounter] at h
      simpa [runOps, applyOp] using h
    | tempAddr size =>
      have hok' : 1 ≤ size ∧ opsOK ops = true := by
        simpa [opsOK, Bool.and_eq_true, decide_eq_true_eq] using hok
      have hta := tempAddr_counter st size hok'.1
      have h := ih (st.TempAddr size).2 hok'.2
      show chainedTo st.addrCounter
        (⟨true, (st.TempAddr size).1, (st.TempAddr size).2.addrCounter - st.addrCounter⟩ ::
          (runOps (st.TempAddr size).2 ops).2)
        (runOps (st.TempAddr size).2 ops).1.addrCounter
      refine ⟨hta.1, ?_, ?_⟩
      · have := round4_pos size hok'.1
        rw [hta.2]
        show 1 ≤ st.addrCounter + (size + 3) / 4 - st.addrCounter
        omega
      · have harith : st.addrCounter + ((st.TempAddr size).2.addrCounter - st.addrCounter) =
            (st.TempAddr size).2.addrCounter := by ring
        rw [harith]
        exact h
    | registerItem item =>
      have hok' : (¬item.ItemType = SymbolTableItemType.Array ∨ 1 ≤ item.ArraySize) ∧
          opsOK ops = true := by
        simpa [opsOK, Bool.and_eq_true, Bool.or_eq_true, decide_eq_true_eq] using hok
      by_cases hreg : (st.Register item).2.2 = none ∧
          (item.ItemType = SymbolTableItemType.Variable ∨
            item.ItemType = SymbolTableItemType.Array)
      · obtain ⟨hnone, hkind⟩ := hreg
        have h := ih (st.Register item).1 hok'.2
        show chainedTo st.addrCounter
          ((applyOp st (STOp.registerItem item)).2 ++
            (runOps (applyOp st (STOp.registerItem item)).1 ops).2)
          (runOps (applyOp st (STOp.registerItem item)).1 ops).1.addrCounter
        rw [show applyOp st (STOp.registerItem item) =
            ((st.Register item).1,
              [⟨false, (st.Register item).2.1.Address,
                (st.Register item).1.addrCounter - st.addrCounter⟩]) from
          if_pos ⟨hnone, hkind⟩]
        have harith : st.addrCounter +
            ((st.Register item).1.addrCounter - st.addrCounter) =
            (st.Register item).1.addrCounter := by ring
        rcases hkind with hk | hk
        · have hv := register_var_success st item hk hnone
          refine ⟨hv.2.1, ?_, ?_⟩
          · have := round4_pos item.VariableSize hv.1
            rw [hv.2.2]
            show 1 ≤ st.addrCounter + (item.VariableSize + 3) / 4 - st.addrCounter
            omega
          · rw [harith]
            exact h
        · have hlen : 1 ≤ item.ArraySize := by
            rcases hok'.1 with hne | hle
            · exact absurd hk hne
            · exact hle
          have ha := register_arr_success st item hk hlen hnone
          refine ⟨ha.2.1, ?_, ?_⟩
          · have := round4_pos (item.VariableSize * item.ArraySize) ha.1
            rw [ha.2.2]
            show 1 ≤ st.addrCounter + (item.VariableSize * item.ArraySize + 3) / 4 -
              st.addrCounter
            omega
          · rw [harith]
            exact h
      · have hctr : (st.Register item).1.addrCounter = st.addrCounter := by
          cases he : (st.Register item).2.2 with
          | some e =>
            rw [(register_err_frame st item e he).1]
          | none =>
            have hnk : ¬(item.ItemType = SymbolTableItemType.Variable ∨
                item.ItemType = SymbolTableItemType.Array) := fun hkind =>
              hreg ⟨he, hkind⟩
            push_neg at hnk
            exact register_other_counter st item hnk.1 hnk.2
        have h := ih (st.Register item).1 hok'.2
        rw [hctr] at h
        show chainedTo st.addrCounter
          ((applyOp st (STOp.registerItem item)).2 ++
            (runOps (applyOp st (STOp.registerItem item)).1 ops).2)
          (runOps (applyOp st (STOp.registerItem item)).1 ops).1.addrCounter
        rw [show applyOp st (STOp.registerItem item) = ((st.Register item).1, []) from
          if_neg hreg]
        simpa using h

/-- Every record of a gap-free run lies at or above the run's start. -/
theorem chainedTo_mem_le (rs : List AllocRec) :
    ∀ c c', chainedTo c rs c' → ∀ r ∈ rs, c ≤ r.addr := by
  induction rs with
  | nil =>
    intro c c' _ r hr
    cases hr
  | cons a rest ih =>
    intro c c' h r hr
    obtain ⟨ha, hw, hrest⟩ := h
    rcases List.mem_cons.mp hr with rfl | hr'
    · omega
    · have := ih (c + a.words) c' hrest r hr'
      omega

/-- A gap-free run of ranges is pairwise disjoint with distinct addresses. -/
theorem chainedTo_pairwise (rs : List AllocRec) :
    ∀ c c', chainedTo c rs c' →
      rs.Pairwise (fun a b => a.addr + a.words ≤ b.addr ∧ a.addr ≠ b.addr) := by
  induction rs with
  | nil =>
    intro c c' _
    exact List.Pairwise.nil
  | cons a rest ih =>
    intro c c' h
    obtain ⟨ha, hw, hrest⟩ := h
    refine List.Pairwise.cons ?_ (ih _ _ hrest)
    intro b hb
    have hb' := chainedTo_mem_le rest _ _ hrest b hb
    constructor <;> omega

/-- C6, counterexample: `TempAddr` performs no size check.  With size 0 the
counter does not advance, so two consecutive `TempAddr 0` calls on a fresh
table return the same address — refuting the claim as stated over every call
sequence. -/
theorem C6_counterexample :
    ((NewSymbolTable none none).TempAddr 0).1 =
      (((NewSymbolTable none none).TempAddr 0).2.TempAddr 0).1 := by
  decide

/-- C6, amended: over every driver-call sequence from `NewSymbolTable` in
which every `TempAddr` call has positive size (and every registered Array
item has positive length), the allocations — the addresses of successfully
registered Variable/Array items and the addresses handed out by `TempAddr` —
have pairwise disjoint word ranges and pairwise distinct addresses; in
particular no `TempAddr` result equals a registered item's address and no two
`TempAddr` calls overlap. -/
theorem C6_alloc_disjoint :
    ∀ (enterFn exitFn : Option (Scope → Option STErr)) (ops : List STOp),
      opsOK ops = true →
      ((runOps (NewSymbolTable enterFn exitFn) ops).2).Pairwise
        (fun a b => a.addr + a.words ≤ b.addr ∧ a.addr ≠ b.addr) :=
  fun enterFn exitFn ops hok =>
    chainedTo_pairwise _ _ _ (runOps_chained ops (NewSymbolTable enterFn exitFn) hok)

/-- C6, witness: the amended theorem applied to a concrete sequence mixing
scope entry, Variable and Array registrations and two temporaries. -/
theorem C6_witness :
    ((runOps (NewSymbolTable none none)
      [STOp.enterScope, STOp.registerItem (vItem "x" 4), STOp.tempAddr 6,
        STOp.registerItem (aItem "a" 2 3), STOp.tempAddr 1]).2).Pairwise
      (fun a b => a.addr + a.words ≤ b.addr ∧ a.addr ≠ b.addr) :=
  C6_alloc_disjoint none none
    [STOp.enterScope, STOp.registerItem (vItem "x" 4), STOp.tempAddr 6,
      STOp.registerItem (aItem "a" 2 3), STOp.tempAddr 1] (by decide)

end FZU
